import Mathlib

/-!
Shallow embedding of the LogInTo relay server (`src/server.js`, `src/users.js`).

Conventions used throughout:
* JavaScript `Map` objects (`sessions`, `agents`, `invites`) are modelled as
  association lists `List (String × α)` with `get` = first match, `set` =
  replace-in-place or append, `delete` = filter.
* Timestamps (`Date.now()`) are naturals counting milliseconds; JS numeric
  payload fields are modelled by `JNum` (finite rational, NaN, ±Infinity) so
  that `typeof`, `isFinite` and NaN-comparison semantics are explicit.
* Handlers are pure functions from state (plus the current time and request
  data) to the new state together with a trace of emitted actions.
-/

namespace LogInTo

/-- Milliseconds since the epoch, the unit of `Date.now()`. -/
abbrev Millis := Nat

/-- Model of a JavaScript number: a finite rational, `NaN`, or an infinity. -/
inductive JNum
  | fin (q : ℚ)
  | nan
  | posInf
  | negInf
deriving DecidableEq, Repr

/-- Model of a JavaScript value as seen in event payload fields. -/
inductive JVal
  | num (n : JNum)
  | str (s : String)
  | boolv (b : Bool)
  | undef
deriving DecidableEq, Repr

/-- JavaScript `x < c` for a number `x` and a finite constant `c`
(`NaN < c` and `Infinity < c` are false, `-Infinity < c` is true). -/
def JNum.ltc : JNum → ℚ → Bool
  | .fin q, c => decide (q < c)
  | .nan, _ => false
  | .posInf, _ => false
  | .negInf, _ => true

/-- JavaScript `x > c` for a number `x` and a finite constant `c`. -/
def JNum.gtc : JNum → ℚ → Bool
  | .fin q, c => decide (q > c)
  | .nan, _ => false
  | .posInf, _ => true
  | .negInf, _ => false

/-- JavaScript truthiness of a `JVal` (`0`, `NaN`, `""`, `false`, `undefined`
are falsy; everything else here is truthy). -/
def JVal.truthy : JVal → Bool
  | .num (.fin q) => decide (q ≠ 0)
  | .num .nan => false
  | .num _ => true
  | .str s => s ≠ ""
  | .boolv b => b
  | .undef => false

/-- Truthiness of an optional string slot (`null`/`undefined` and `""` are
falsy), used for handshake fields and the resolved agent key. -/
def strTruthy : Option String → Bool
  | none => false
  | some s => s ≠ ""

/-! ## User store data model (`src/users.js`) -/

/-- One machine record of a user (`users.json` entry). -/
structure Machine where
  id : String
  name : String
  agentKey : String
  macAddress : Option String := none
  broadcastAddress : Option String := none
deriving DecidableEq, Repr

/-- One user record of the JSON user store. -/
structure User where
  id : String
  displayName : String
  passwordHash : String
  machines : List Machine
deriving DecidableEq, Repr

/-- The in-memory user store (`this.users`, a JSON array on disk). -/
abbrev UserStore := List User

/-- Embedding of `UserStore.getById` (projection to id/displayName elided;
the claims never inspect it beyond existence). -/
def getById (us : UserStore) (uid : String) : Option User :=
  us.find? (fun u => u.id == uid)

/-- Embedding of `UserStore.getMachines`: all machines of a user, `[]` for an
unknown user. The source projects each machine to `{id, name, agentKey}`;
we return the records themselves, which carry the same fields. -/
def getMachines (us : UserStore) (uid : String) : List Machine :=
  match getById us uid with
  | none => []
  | some u => u.machines

/-- Embedding of `UserStore.getMachine`: a specific machine of a user. -/
def getMachine (us : UserStore) (uid mid : String) : Option Machine :=
  match getById us uid with
  | none => none
  | some u => u.machines.find? (fun m => m.id == mid)

/-- Result of `UserStore.getByAgentKey`: user id, display name, machine id,
machine name. -/
structure AgentKeyInfo where
  userId : String
  displayName : String
  machineId : String
  machineName : String
deriving DecidableEq, Repr

/-- Embedding of `UserStore.getByAgentKey`: scan all users for a machine with
the given agent key. -/
def getByAgentKey (us : UserStore) (key : String) : Option AgentKeyInfo :=
  match us.find? (fun u => (u.machines.find? (fun m => m.agentKey == key)).isSome) with
  | none => none
  | some u =>
    match u.machines.find? (fun m => m.agentKey == key) with
    | none => none
    | some m => some ⟨u.id, u.displayName, m.id, m.name⟩

/-! ## File-system operations of the user store

`UserStore._save` is `fs.writeFileSync(USERS_FILE, JSON.stringify(this.users,
null, 2))`: one direct synchronous write of the whole document to the final
path. We record the file-system effects of each mutation as a list of
`FsOp`s so the write pattern itself is a provable object. -/

/-- A primitive file-system operation performed by the user store. -/
inductive FsOp
  | writeFile (path : String) (content : String)
  | rename (src dst : String)
deriving DecidableEq, Repr

/-- The well-known path of the users JSON document (`data/users.json`). -/
def usersFilePath : String := "data/users.json"

/-- Serialization of the store, abstracting `JSON.stringify(users, null, 2)`;
the exact formatting is immaterial to every claim, only that the entire
document is rewritten. -/
def encodeUsers (us : UserStore) : String :=
  toString (repr us)

/-- Embedding of `UserStore._save`: a single direct `writeFileSync` of the
whole document to `USERS_FILE`. There is no temporary file and no rename in
the source. -/
def saveOps (us : UserStore) : List FsOp :=
  [FsOp.writeFile usersFilePath (encodeUsers us)]

/-- Embedding of `UserStore.addMachine`. The fresh machine id
(`'m' + Date.now()`) and fresh agent key (`uuidv4()`) are passed in as
parameters `freshId`, `freshKey` to keep the function pure. Returns the new
machine (or `none` for an unknown user), the new store, and the file-system
operations performed. -/
def addMachine (us : UserStore) (uid name freshId freshKey : String) :
    Option Machine × UserStore × List FsOp :=
  match getById us uid with
  | none => (none, us, [])
  | some u =>
    let nextNum := u.machines.length + 1
    let m : Machine :=
      { id := freshId
        name := if name == "" then "Machine " ++ toString nextNum else name
        agentKey := freshKey }
    let us' := us.map (fun v => if v.id == uid then { v with machines := v.machines ++ [m] } else v)
    (some m, us', saveOps us')

/-- Embedding of `UserStore.removeMachine`: splice out the first machine with
the given id, save, return whether a machine was removed. -/
def removeMachine (us : UserStore) (uid mid : String) :
    Bool × UserStore × List FsOp :=
  match getById us uid with
  | none => (false, us, [])
  | some u =>
    if (u.machines.find? (fun m => m.id == mid)).isSome then
      let us' := us.map (fun v =>
        if v.id == uid then { v with machines := v.machines.eraseP (fun m => m.id == mid) } else v)
      (true, us', saveOps us')
    else (false, us, [])

/-- Embedding of `UserStore.renameMachine`. -/
def renameMachine (us : UserStore) (uid mid newName : String) :
    Bool × UserStore × List FsOp :=
  match getById us uid with
  | none => (false, us, [])
  | some u =>
    if (u.machines.find? (fun m => m.id == mid)).isSome then
      let us' := us.map (fun v =>
        if v.id == uid then
          { v with machines := v.machines.map (fun m => if m.id == mid then { m with name := newName } else m) }
        else v)
      (true, us', saveOps us')
    else (false, us, [])

/-- Embedding of `UserStore._seed`: the two demo users written on first run.
Password hashes and the two generated agent keys are parameters. -/
def seedStore (hashK hashT keyK keyT : String) : UserStore × List FsOp :=
  let us : UserStore :=
    [ { id := "kingpin", displayName := "Kingpin", passwordHash := hashK
        machines := [{ id := "m1", name := "My Laptop", agentKey := keyK }] }
    , { id := "tez", displayName := "Tez", passwordHash := hashT
        machines := [{ id := "m1", name := "My Laptop", agentKey := keyT }] } ]
  (us, saveOps us)

/-- A raw on-disk user record as `init` may load it: possibly a legacy record
with a top-level `agentKey` and no `machines` list. -/
structure RawUser where
  id : String
  displayName : String
  passwordHash : String
  agentKey : Option String := none
  machines : Option (List Machine) := none
deriving DecidableEq, Repr

/-- Migration of one raw record (`init`, migrate branch): a legacy truthy
`agentKey` with no `machines` becomes a single-machine list; a missing
`machines` list becomes `[]`. Returns the record and whether it migrated. -/
def migrateUser (r : RawUser) : User × Bool :=
  match r.agentKey, r.machines with
  | some k, none =>
    if k ≠ "" then
      ({ id := r.id, displayName := r.displayName, passwordHash := r.passwordHash
         machines := [{ id := "m1", name := "My Laptop", agentKey := k }] }, true)
    else
      ({ id := r.id, displayName := r.displayName, passwordHash := r.passwordHash, machines := [] }, false)
  | _, none =>
    ({ id := r.id, displayName := r.displayName, passwordHash := r.passwordHash, machines := [] }, false)
  | _, some ms =>
    ({ id := r.id, displayName := r.displayName, passwordHash := r.passwordHash, machines := ms }, false)

/-- Embedding of `UserStore.init` on an existing file: migrate each record;
if anything migrated, `_save` once. -/
def initLoad (raw : List RawUser) : UserStore × List FsOp :=
  let us := raw.map (fun r => (migrateUser r).1)
  if raw.any (fun r => (migrateUser r).2) then (us, saveOps us) else (us, [])

/-- The claim's notion of an atomic document rewrite: write a temporary file,
then rename it onto the users file (stated from the spec's words, to be
compared with what the code does). -/
def atomicWritePattern (ops : List FsOp) : Prop :=
  ∃ tmp content, tmp ≠ usersFilePath ∧
    ops = [FsOp.writeFile tmp content, FsOp.rename tmp usersFilePath]

/-! ## Session store (`server.js` lines 80‑115) -/

/-- One session record: `{ userId, created, lastActive }`. -/
structure Session where
  userId : String
  created : Millis
  lastActive : Millis
deriving DecidableEq, Repr

/-- The `sessions` map, `token → Session`. -/
abbrev Sessions := List (String × Session)

/-- The 24-hour inactivity TTL in milliseconds. -/
def SESSION_TTL : Millis := 24 * 60 * 60 * 1000

/-- Lookup in an association-list map (JS `Map.get`). -/
def mapGet {α : Type} (m : List (String × α)) (k : String) : Option α :=
  (m.find? (fun p => p.1 == k)).map (fun p => p.2)

/-- Update in an association-list map (JS `Map.set`): replace the existing
entry in place, else append. -/
def mapSet {α : Type} (m : List (String × α)) (k : String) (v : α) : List (String × α) :=
  if (m.find? (fun p => p.1 == k)).isSome then
    m.map (fun p => if p.1 == k then (k, v) else p)
  else m ++ [(k, v)]

/-- Deletion from an association-list map (JS `Map.delete`). -/
def mapDel {α : Type} (m : List (String × α)) (k : String) : List (String × α) :=
  m.filter (fun p => p.1 != k)

/-- Embedding of `isValidSession(token)` (`server.js:100‑111`): miss → false;
inactive for more than `SESSION_TTL` → delete and false; otherwise refresh
`lastActive` and return true. `none` models a missing/undefined header
token. -/
def isValidSession (now : Millis) (ss : Sessions) (tok : Option String) : Bool × Sessions :=
  match tok with
  | none => (false, ss)
  | some t =>
    match mapGet ss t with
    | none => (false, ss)
    | some s =>
      if now - s.lastActive > SESSION_TTL then (false, mapDel ss t)
      else (true, mapSet ss t { s with lastActive := now })

/-- Repeated session validation at an increasing list of instants, returning
the outcomes in order together with the final session map. -/
def runChecks (tok : String) : Sessions → List Millis → List Bool × Sessions
  | ss, [] => ([], ss)
  | ss, t :: ts =>
    let r := isValidSession t ss (some tok)
    let rest := runChecks tok r.2 ts
    (r.1 :: rest.1, rest.2)

/-- Validation instants each at least as late as the previous one and within
the TTL of it (e.g. one check per hour). -/
def gapsOk : Millis → List Millis → Prop
  | _, [] => True
  | prev, t :: ts => prev ≤ t ∧ t - prev ≤ SESSION_TTL ∧ gapsOk t ts

instance : ∀ prev ts, Decidable (gapsOk prev ts) := by
  intro prev ts
  induction ts generalizing prev with
  | nil => exact .isTrue trivial
  | cons t ts ih => exact @instDecidableAnd _ _ _ (@instDecidableAnd _ _ _ (ih t))

/-! ## Invite store (`server.js` lines 550‑610, 632‑639) -/

/-- One invite record. -/
structure Invite where
  userId : String
  machineId : String
  machineName : String
  displayName : String
  expiresAt : Millis
deriving DecidableEq, Repr

/-- The `invites` map, `inviteToken → Invite`. -/
abbrev Invites := List (String × Invite)

/-- Response of `GET /api/invite-info/:inviteToken`. -/
inductive InviteInfoResp
  | missing
  | ok (userId displayName machineName : String) (expiresAt : Millis)
deriving DecidableEq, Repr

/-- Embedding of `GET /api/invite-info/:inviteToken` (`server.js:585‑596`):
404 `Invalid or expired invite link` on a missing or expired invite,
otherwise the public snapshot. The invite map is returned so the handler's
(lack of) mutation is part of the statement. -/
def inviteInfoHandler (inv : Invites) (now : Millis) (tok : String) :
    InviteInfoResp × Invites :=
  match mapGet inv tok with
  | none => (.missing, inv)
  | some i =>
    if now > i.expiresAt then (.missing, inv)
    else (.ok i.userId i.displayName i.machineName i.expiresAt, inv)

/-! ## Socket.IO auth middleware (`server.js:618‑649`) -/

/-- The handshake auth fields (`socket.handshake.auth`); `none` models an
absent field. -/
structure Handshake where
  token : Option String := none
  role : Option String := none
  agentKey : Option String := none
  inviteToken : Option String := none
  machineId : Option String := none
deriving DecidableEq, Repr

/-- Outcome of the auth middleware: a refusal (`next(new Error(msg))`) or the
identity fields attached to the socket before `next()`. -/
inductive SockAuth
  | refused (msg : String)
  | agentSock (userId displayName agentKey machineId machineName : String)
  | inviteSock (userId machineId : String)
  | sessionSock (userId role : String) (machineId : Option String)
deriving DecidableEq, Repr

/-- Embedding of the `io.use` middleware. Branch order as in the source:
`role === 'agent'` first, then a truthy `inviteToken`, else session
validation. Returns the auth outcome, the session map (possibly refreshed or
lazily cleaned by `isValidSession`), and the invite map (which the source
never mutates here). -/
def ioAuthMiddleware (us : UserStore) (ss : Sessions) (inv : Invites)
    (now : Millis) (h : Handshake) : SockAuth × Sessions × Invites :=
  if h.role == some "agent" then
    if ¬ strTruthy h.agentKey then (.refused "Agent key required", ss, inv)
    else
      match h.agentKey with
      | none => (.refused "Agent key required", ss, inv)
      | some k =>
        match getByAgentKey us k with
        | none => (.refused "Invalid agent key", ss, inv)
        | some info => (.agentSock info.userId info.displayName k info.machineId info.machineName, ss, inv)
  else if strTruthy h.inviteToken then
    match h.inviteToken with
    | none => (.refused "Invalid or expired invite link", ss, inv)
    | some tok =>
      match mapGet inv tok with
      | none => (.refused "Invalid or expired invite link", ss, inv)
      | some i =>
        if now > i.expiresAt then (.refused "Invalid or expired invite link", ss, inv)
        else (.inviteSock i.userId i.machineId, ss, inv)
  else
    let r := isValidSession now ss h.token
    if r.1 then
      match h.token with
      | none => (.refused "Authentication required", r.2, inv)
      | some t =>
        match mapGet r.2 t with
        | none => (.refused "Authentication required", r.2, inv)
        | some s =>
          let role := match h.role with
            | some ro => if ro ≠ "" then ro else "viewer"
            | none => "viewer"
          (.sessionSock s.userId role h.machineId, r.2, inv)
    else (.refused "Authentication required", r.2, inv)

/-! ## Connection registry and relay handlers (`server.js:651‑846`) -/

/-- One live agent connection (`agents` map value): the socket, the cached
`screen-info` payload (an opaque token), the `connected` flag, and the
owning user/machine identifiers. -/
structure AgentConn where
  sock : Nat
  screenInfo : Option Nat
  connected : Bool
  userId : String
  machineId : String
  machineName : String
deriving DecidableEq, Repr

/-- The `agents` map, `agentKey → AgentConn`. -/
abbrev Agents := List (String × AgentConn)

/-- Socket.IO room membership: room name → member sockets (a set; joins are
idempotent). -/
abbrev Rooms := List (String × List Nat)

/-- Embedding of `viewerRoom(agentKey)`. -/
def viewerRoom (agentKey : String) : String := "viewers:" ++ agentKey

/-- Embedding of `userRoom(userId)`. -/
def userRoom (uid : String) : String := "user:" ++ uid

/-- Members of a room (`[]` for an absent room, matching
`io.sockets.adapter.rooms.get` returning `undefined`). -/
def roomMembers (rs : Rooms) (r : String) : List Nat :=
  match mapGet rs r with
  | none => []
  | some ms => ms

/-- `socket.join(room)`: add the socket to the room if not already present. -/
def roomJoin (rs : Rooms) (r : String) (sock : Nat) : Rooms :=
  let ms := roomMembers rs r
  if sock ∈ ms then rs else mapSet rs r (ms ++ [sock])

/-- Automatic room cleanup on disconnect: the socket leaves every room
(performed by Socket.IO before the `disconnect` event handlers run). -/
def roomsLeaveAll (rs : Rooms) (sock : Nat) : Rooms :=
  rs.map (fun p => (p.1, p.2.filter (fun s => s ≠ sock)))

/-- Events the relay emits to sockets or rooms. -/
inductive Event
  | kicked (reason : String)
  | agentStatus (connected : Bool)
  | machineStatus (machineId : String) (connected : Bool)
  | screenInfo (payload : Nat)
  | startStreaming
  | stopStreaming
  | mouseEvent (name : String) (x y button : JVal)
  | updateQuality (q : JVal)
  | updateFps (f : JVal)
deriving DecidableEq, Repr

/-- Observable actions of a handler, in execution order. `mapSetKey` and
`mapDelKey` mark the instants at which the `agents` map changes, so that
ordering claims about eviction can be stated on one trace. -/
inductive Action
  | emitSock (sock : Nat) (e : Event)
  | emitRoom (room : String) (e : Event)
  | disconnectSock (sock : Nat)
  | mapSetKey (key : String) (sock : Nat)
  | mapDelKey (key : String)
deriving DecidableEq, Repr

/-- The relay's mutable state touched by the socket connection handlers. -/
structure RelayState where
  users : UserStore
  agents : Agents
  rooms : Rooms
deriving DecidableEq, Repr

/-- Embedding of the agent `disconnect` handler (`server.js:704‑711`):
delete the map entry, tell the viewer room the agent is gone, tell the user
room the machine is offline. The parameters are the disconnecting socket's
attached fields. -/
def agentDisconnectHandler (st : RelayState) (agentKey uid mid : String) :
    RelayState × List Action :=
  ({ st with agents := mapDel st.agents agentKey },
   [Action.mapDelKey agentKey,
    Action.emitRoom (viewerRoom agentKey) (.agentStatus false),
    Action.emitRoom (userRoom uid) (.machineStatus mid false)])

/-- Embedding of the agent branch of `io.on('connection')`
(`server.js:659‑681`). If an active connection already holds the key, it is
sent `kicked` and then disconnected; `socket.disconnect()` dispatches the
evicted socket's own `disconnect` handler synchronously (Socket.IO v4
`Socket.disconnect` → `_onclose` → `emitReserved("disconnect")`), which is
inlined here. Afterwards the fresh connection is stored and status is
broadcast. -/
def agentConnectHandler (st : RelayState) (sock : Nat)
    (agentKey uid mid mname : String) : RelayState × List Action :=
  let pre : RelayState × List Action :=
    match mapGet st.agents agentKey with
    | some a =>
      if a.connected then
        let d := agentDisconnectHandler st agentKey a.userId a.machineId
        (d.1,
         [Action.emitSock a.sock (.kicked "Another agent connected for this machine"),
          Action.disconnectSock a.sock] ++ d.2)
      else (st, [])
    | none => (st, [])
  let fresh : AgentConn :=
    { sock := sock, screenInfo := none, connected := true
      userId := uid, machineId := mid, machineName := mname }
  ({ pre.1 with agents := mapSet pre.1.agents agentKey fresh },
   pre.2 ++
   [Action.mapSetKey agentKey sock,
    Action.emitRoom (viewerRoom agentKey) (.agentStatus true),
    Action.emitRoom (userRoom uid) (.machineStatus mid true)])

/-- Embedding of the agent `screen-info` handler (`server.js:683‑687`):
cache the payload on the map entry if present, then broadcast it to the
viewer room. -/
def screenInfoHandler (st : RelayState) (agentKey : String) (payload : Nat) :
    RelayState × List Action :=
  let st' :=
    match mapGet st.agents agentKey with
    | some a => { st with agents := mapSet st.agents agentKey { a with screenInfo := some payload } }
    | none => st
  (st', [Action.emitRoom (viewerRoom agentKey) (.screenInfo payload)])

/-- Embedding of the viewer branch's agent-key resolution
(`server.js:717‑726`): a truthy `socket.machineId` is looked up among the
user's machines; if that leaves the key falsy, fall back to the first
machine's key when the user has any machine. -/
def resolveAgentKey (us : UserStore) (uid : String) (machineId : Option String) :
    Option String :=
  let fromMid : Option String :=
    match machineId with
    | some m => if m ≠ "" then (getMachine us uid m).map (fun mm => mm.agentKey) else none
    | none => none
  if strTruthy fromMid then fromMid
  else
    match getMachines us uid with
    | [] => fromMid
    | m :: _ => some m.agentKey

/-- Embedding of the viewer branch of `io.on('connection')`
(`server.js:715‑742`): resolve the agent key, join the viewer room (when the
key is truthy) and the user room, then either report the agent connected —
telling the agent to `start-streaming` and pushing any cached screen info —
or report it disconnected. Returns the stored `socket.agentKey` as well. -/
def viewerConnectHandler (st : RelayState) (sock : Nat) (uid : String)
    (machineId : Option String) : RelayState × List Action × Option String :=
  let agentKey := resolveAgentKey st.users uid machineId
  let rooms1 :=
    match agentKey with
    | some k => if k ≠ "" then roomJoin st.rooms (viewerRoom k) sock else st.rooms
    | none => st.rooms
  let rooms2 := roomJoin rooms1 (userRoom uid) sock
  let agent : Option AgentConn :=
    match agentKey with
    | some k => if k ≠ "" then mapGet st.agents k else none
    | none => none
  let acts : List Action :=
    match agent with
    | some a =>
      if a.connected then
        [Action.emitSock sock (.agentStatus true), Action.emitSock a.sock .startStreaming] ++
        (match a.screenInfo with
         | some si => [Action.emitSock sock (.screenInfo si)]
         | none => [])
      else [Action.emitSock sock (.agentStatus false)]
    | none => [Action.emitSock sock (.agentStatus false)]
  ({ st with rooms := rooms2 }, acts, agentKey)

/-- Embedding of the viewer `disconnect` handler (`server.js:818‑829`).
Socket.IO has already removed the socket from its rooms when the handler
runs; if the socket had a truthy `agentKey` and its viewer room is now
empty, a connected agent is told to `stop-streaming`. -/
def viewerDisconnectHandler (st : RelayState) (sock : Nat)
    (agentKey : Option String) : RelayState × List Action :=
  let st' := { st with rooms := roomsLeaveAll st.rooms sock }
  let acts : List Action :=
    if strTruthy agentKey then
      match agentKey with
      | none => []
      | some k =>
        if roomMembers st'.rooms (viewerRoom k) = [] then
          match mapGet st.agents k with
          | some a => if a.connected then [Action.emitSock a.sock .stopStreaming] else []
          | none => []
        else []
    else []
  (st', acts)

/-! ## Viewer input validation and relay (`server.js:744‑791`) -/

/-- Embedding of `validCoord`: `typeof v === 'number' && isFinite(v) &&
v >= -10 && v <= 100000`. -/
def validCoord : JVal → Bool
  | .num (.fin q) => decide ((-10 : ℚ) ≤ q ∧ q ≤ 100000)
  | _ => false

/-- Embedding of `validButton`: `['left','right','middle'].includes(v)`. -/
def validButton (v : JVal) : Bool :=
  v == .str "left" || v == .str "right" || v == .str "middle"

/-- A mouse event payload object; an absent property is `undef`. -/
structure MouseData where
  x : JVal
  y : JVal
  button : JVal := .undef
deriving DecidableEq, Repr

/-- Embedding of `validMouse`: `d && validCoord(d.x) && validCoord(d.y)`
(`none` models a falsy `data` such as `null`). -/
def validMouse : Option MouseData → Bool
  | none => false
  | some d => validCoord d.x && validCoord d.y

/-- Lookup of `socket.agentKey ? agents.get(socket.agentKey) : null`. -/
def agentFor (ag : Agents) (agentKey : Option String) : Option AgentConn :=
  if strTruthy agentKey then
    match agentKey with
    | some k => mapGet ag k
    | none => none
  else none

/-- Embedding of the shared handler installed for the six mouse events
(`server.js:752‑761`): silently drop on failed validation, silently drop a
truthy button outside the allowed set, forward to the connected agent
otherwise. -/
def mouseEventHandler (ag : Agents) (agentKey : Option String)
    (name : String) (data : Option MouseData) : List Action :=
  if ¬ validMouse data then []
  else
    match data with
    | none => []
    | some d =>
      if d.button.truthy && ¬ validButton d.button then []
      else
        match agentFor ag agentKey with
        | some a =>
          if a.connected then [Action.emitSock a.sock (.mouseEvent name d.x d.y d.button)]
          else []
        | none => []

/-- Embedding of the `update-quality` handler (`server.js:782‑786`):
`if (!data || typeof data.quality !== 'number' || data.quality < 10 ||
data.quality > 100) return;` then forward to the connected agent. The
argument is the payload's `quality` field (`none` models a falsy `data`
object). -/
def updateQualityHandler (ag : Agents) (agentKey : Option String)
    (quality : Option JVal) : List Action :=
  match quality with
  | none => []
  | some q =>
    match q with
    | .num n =>
      if n.ltc 10 then []
      else if n.gtc 100 then []
      else
        match agentFor ag agentKey with
        | some a => if a.connected then [Action.emitSock a.sock (.updateQuality q)] else []
        | none => []
    | _ => []

/-- Embedding of the `update-fps` handler (`server.js:787‑791`), analogous
with bounds 1 and 60. -/
def updateFpsHandler (ag : Agents) (agentKey : Option String)
    (fps : Option JVal) : List Action :=
  match fps with
  | none => []
  | some f =>
    match f with
    | .num n =>
      if n.ltc 1 then []
      else if n.gtc 60 then []
      else
        match agentFor ag agentKey with
        | some a => if a.connected then [Action.emitSock a.sock (.updateFps f)] else []
        | none => []
    | _ => []

/-- The spec's acceptance set for `update-quality` (stated from the claim's
words, for comparison with the code's check): an integer in `[10, 100]`. -/
def specQualityOk (v : JVal) : Prop :=
  ∃ n : ℤ, v = .num (.fin (n : ℚ)) ∧ 10 ≤ n ∧ n ≤ 100

/-- The spec's acceptance set for `update-fps`: an integer in `[1, 60]`. -/
def specFpsOk (v : JVal) : Prop :=
  ∃ n : ℤ, v = .num (.fin (n : ℚ)) ∧ 1 ≤ n ∧ n ≤ 60

/-! ## HTTP control plane (`server.js:176‑610`)

Each handler that references `:userId` opens with the same three guard
lines: `isValidSession` (401 on failure), `getSession`, and a 403 when the
session's user differs from the path user. The guard is factored into
`guardUser`; each handler below instantiates it exactly as the source
does. -/

/-- The whole process-wide state the HTTP handlers can touch. -/
structure HttpState where
  users : UserStore
  sessions : Sessions
  invites : Invites
  agents : Agents
deriving DecidableEq, Repr

/-- Outcome of the shared auth guard: an error status (401 or 403) or the
validated session. -/
inductive Guard
  | fail (status : Nat)
  | pass (s : Session)
deriving DecidableEq, Repr

/-- The three guard lines shared by every `:userId` handler:
`if (!isValidSession(token)) return 401; const session = getSession(token);
if (session.userId !== req.params.userId) return 403;`. -/
def guardUser (ss : Sessions) (now : Millis) (tok : Option String) (uid : String) :
    Guard × Sessions :=
  let r := isValidSession now ss tok
  if r.1 then
    match tok with
    | none => (.fail 401, r.2)
    | some t =>
      match mapGet r.2 t with
      | none => (.fail 401, r.2)
      | some s => if s.userId ≠ uid then (.fail 403, r.2) else (.pass s, r.2)
  else (.fail 401, r.2)

/-- Reading of `agents.get(key)?.connected || false`. -/
def machineConnected (ag : Agents) (key : String) : Bool :=
  match mapGet ag key with
  | some a => a.connected
  | none => false

/-- Side effects of HTTP handlers other than store writes. -/
inductive HttpEffect
  | wolSend (mac addr : String) (port : Nat)
deriving DecidableEq, Repr

/-- Embedding of `GET /api/user-status/:userId` (`server.js:176‑191`). The
200 body is `(anyConnected, [(id, name, connected)])`. -/
def userStatusHandler (st : HttpState) (now : Millis) (tok : Option String) (uid : String) :
    Nat × Option (Bool × List (String × String × Bool)) × HttpState :=
  match guardUser st.sessions now tok uid with
  | (.fail c, ss') => (c, none, { st with sessions := ss' })
  | (.pass _, ss') =>
    let result := (getMachines st.users uid).map
      (fun m => (m.id, m.name, machineConnected st.agents m.agentKey))
    (200, some (result.any (fun r => r.2.2), result), { st with sessions := ss' })

/-- Embedding of `GET /api/machines/:userId` (`server.js:194‑206`). -/
def machinesListHandler (st : HttpState) (now : Millis) (tok : Option String) (uid : String) :
    Nat × Option (List (Machine × Bool)) × HttpState :=
  match guardUser st.sessions now tok uid with
  | (.fail c, ss') => (c, none, { st with sessions := ss' })
  | (.pass _, ss') =>
    (200, some ((getMachines st.users uid).map (fun m => (m, machineConnected st.agents m.agentKey))),
     { st with sessions := ss' })

/-- Embedding of `POST /api/machines/:userId` (`server.js:209‑219`):
`users.addMachine(uid, name || 'New Machine')`, 400 when it returns nothing.
`freshId`/`freshKey` stand for `Date.now()`/`uuidv4()`. -/
def machinesAddHandler (st : HttpState) (now : Millis) (tok : Option String) (uid : String)
    (bodyName : Option String) (freshId freshKey : String) :
    Nat × HttpState × List FsOp :=
  match guardUser st.sessions now tok uid with
  | (.fail c, ss') => (c, { st with sessions := ss' }, [])
  | (.pass _, ss') =>
    let name := match bodyName with
      | some n => if n ≠ "" then n else "New Machine"
      | none => "New Machine"
    let r := addMachine st.users uid name freshId freshKey
    match r.1 with
    | none => (400, { st with sessions := ss' }, [])
    | some _ => (200, { st with sessions := ss', users := r.2.1 }, r.2.2)

/-- Embedding of `DELETE /api/machines/:userId/:machineId`
(`server.js:222‑231`). -/
def machinesDeleteHandler (st : HttpState) (now : Millis) (tok : Option String)
    (uid mid : String) : Nat × HttpState × List FsOp :=
  match guardUser st.sessions now tok uid with
  | (.fail c, ss') => (c, { st with sessions := ss' }, [])
  | (.pass _, ss') =>
    let r := removeMachine st.users uid mid
    if r.1 then (200, { st with sessions := ss', users := r.2.1 }, r.2.2)
    else (404, { st with sessions := ss' }, [])

/-- Embedding of `PATCH /api/machines/:userId/:machineId`
(`server.js:234‑245`): 400 on a falsy name, else rename. -/
def machinesRenameHandler (st : HttpState) (now : Millis) (tok : Option String)
    (uid mid : String) (bodyName : Option String) : Nat × HttpState × List FsOp :=
  match guardUser st.sessions now tok uid with
  | (.fail c, ss') => (c, { st with sessions := ss' }, [])
  | (.pass _, ss') =>
    if ¬ strTruthy bodyName then (400, { st with sessions := ss' }, [])
    else
      match bodyName with
      | none => (400, { st with sessions := ss' }, [])
      | some nm =>
        let r := renameMachine st.users uid mid nm
        if r.1 then (200, { st with sessions := ss', users := r.2.1 }, r.2.2)
        else (404, { st with sessions := ss' }, [])

/-- Embedding of `GET /api/agent-info/:userId` (`server.js:248‑257`). The
200 body is `(machines[0]?.agentKey || null, machines)`. -/
def agentInfoHandler (st : HttpState) (now : Millis) (tok : Option String) (uid : String) :
    Nat × Option (Option String × List Machine) × HttpState :=
  match guardUser st.sessions now tok uid with
  | (.fail c, ss') => (c, none, { st with sessions := ss' })
  | (.pass _, ss') =>
    let ms := getMachines st.users uid
    (200, some ((ms.head?).map (fun m => m.agentKey), ms), { st with sessions := ss' })

/-- Hexadecimal digit check used by the MAC regex. -/
def isHexChar (c : Char) : Bool :=
  c.isDigit || (('A' ≤ c) && (c ≤ 'F')) || (('a' ≤ c) && (c ≤ 'f'))

/-- Helper matching `([0-9A-Fa-f]\x7b2\x7d[:\-])^n [0-9A-Fa-f]\x7b2\x7d`
against a character list. -/
def macChunks : List Char → Nat → Bool
  | [a, b], 0 => isHexChar a && isHexChar b
  | a :: b :: sep :: rest, n + 1 =>
    isHexChar a && isHexChar b && (sep == ':' || sep == '-') && macChunks rest n
  | _, _ => false

/-- Embedding of `macRegex.test` for
`^([0-9A-Fa-f]\x7b2\x7d[:\-])\x7b5\x7d[0-9A-Fa-f]\x7b2\x7d$`. -/
def macRegexTest (s : String) : Bool :=
  macChunks s.toList 5

/-- Embedding of `ipRegex.test` for a dotted quad of 1–3 digit groups. -/
def ipRegexTest (s : String) : Bool :=
  let parts := s.split (fun c => c == '.')
  parts.length == 4 &&
    parts.all (fun p => 1 ≤ p.length && p.length ≤ 3 && p.toList.all Char.isDigit)

/-- Embedding of `PATCH /api/machines/:userId/:machineId/mac`
(`server.js:520‑548`): beyond the guard and the two regex checks, the
handler calls `users.setMacAddress(...)` — a method `src/users.js` does not
define — so the surviving path throws a `TypeError`, which Express turns
into a 500 with no store mutation. -/
def macPatchHandler (st : HttpState) (now : Millis) (tok : Option String)
    (uid mid : String) (macAddress broadcastAddress : Option String) :
    Nat × HttpState × List FsOp :=
  match guardUser st.sessions now tok uid with
  | (.fail c, ss') => (c, { st with sessions := ss' }, [])
  | (.pass _, ss') =>
    if strTruthy macAddress && ¬ macRegexTest (macAddress.getD "") then
      (400, { st with sessions := ss' }, [])
    else if strTruthy broadcastAddress && ¬ ipRegexTest (broadcastAddress.getD "") then
      (400, { st with sessions := ss' }, [])
    else
      (500, { st with sessions := ss' }, [])

/-- Embedding of `POST /api/machines/:userId/:machineId/wake`
(`server.js:484‑517`): 404 for an unknown machine, 400 without a MAC,
`alreadyOnline` without a packet when the agent is connected, otherwise a
magic packet to `broadcastAddress || '255.255.255.255'` on port 9. The
`wol.wake` callback is modelled as succeeding; its error branch only changes
the reply. -/
def wakeHandler (st : HttpState) (now : Millis) (tok : Option String)
    (uid mid : String) : Nat × HttpState × List HttpEffect :=
  match guardUser st.sessions now tok uid with
  | (.fail c, ss') => (c, { st with sessions := ss' }, [])
  | (.pass _, ss') =>
    match getMachine st.users uid mid with
    | none => (404, { st with sessions := ss' }, [])
    | some m =>
      if ¬ strTruthy m.macAddress then (400, { st with sessions := ss' }, [])
      else if machineConnected st.agents m.agentKey then
        (200, { st with sessions := ss' }, [])
      else
        let addr := match m.broadcastAddress with
          | some b => if b ≠ "" then b else "255.255.255.255"
          | none => "255.255.255.255"
        (200, { st with sessions := ss' }, [HttpEffect.wolSend (m.macAddress.getD "") addr 9])

/-- The 7-day invite TTL in milliseconds. -/
def INVITE_TTL : Millis := 7 * 24 * 60 * 60 * 1000

/-- Embedding of `POST /api/invites/:userId/:machineId`
(`server.js:555‑582`): 404 for an unknown machine, else mint an invite with
`expiresAt = now + INVITE_TTL` under a fresh token. -/
def inviteCreateHandler (st : HttpState) (now : Millis) (tok : Option String)
    (uid mid : String) (freshToken : String) : Nat × HttpState :=
  match guardUser st.sessions now tok uid with
  | (.fail c, ss') => (c, { st with sessions := ss' })
  | (.pass _, ss') =>
    match getMachine st.users uid mid with
    | none => (404, { st with sessions := ss' })
    | some m =>
      let dn := match getById st.users uid with
        | some u => u.displayName
        | none => uid
      let inv : Invite :=
        { userId := uid, machineId := mid, machineName := m.name
          displayName := dn, expiresAt := now + INVITE_TTL }
      (200, { st with sessions := ss', invites := mapSet st.invites freshToken inv })

/-- Embedding of `DELETE /api/invites/:userId/:inviteToken`
(`server.js:599‑610`): 404 when the invite is missing or belongs to another
user, else delete it. -/
def inviteRevokeHandler (st : HttpState) (now : Millis) (tok : Option String)
    (uid inviteToken : String) : Nat × HttpState :=
  match guardUser st.sessions now tok uid with
  | (.fail c, ss') => (c, { st with sessions := ss' })
  | (.pass _, ss') =>
    match mapGet st.invites inviteToken with
    | none => (404, { st with sessions := ss' })
    | some i =>
      if i.userId ≠ uid then (404, { st with sessions := ss' })
      else (200, { st with sessions := ss', invites := mapDel st.invites inviteToken })

/-! ## Step relation over the relay state

Every socket-side handler that can touch `agents` or `rooms` is one step;
`usersMutate` abstracts the HTTP machine-CRUD handlers interleaving with the
socket handlers (they only replace the user store). Frame, clipboard and
input relays do not modify the state and need no step. -/

/-- One event-loop turn of the relay. -/
inductive RStep : RelayState → RelayState → Prop
  | agentConn (st : RelayState) (sock : Nat) (k uid mid mn : String) :
      RStep st (agentConnectHandler st sock k uid mid mn).1
  | agentDisc (st : RelayState) (k uid mid : String) :
      RStep st (agentDisconnectHandler st k uid mid).1
  | screenInfoStep (st : RelayState) (k : String) (p : Nat) :
      RStep st (screenInfoHandler st k p).1
  | viewerConn (st : RelayState) (sock : Nat) (uid : String) (mid : Option String) :
      RStep st (viewerConnectHandler st sock uid mid).1
  | viewerDisc (st : RelayState) (sock : Nat) (k : Option String) :
      RStep st (viewerDisconnectHandler st sock k).1
  | usersMutate (st : RelayState) (us : UserStore) :
      RStep st { st with users := us }

/-- The relay state at boot: empty `agents` map, no rooms. -/
def initRelay (us : UserStore) : RelayState :=
  { users := us, agents := [], rooms := [] }

/-- Relay states reachable from boot by event-loop turns. -/
def Reachable (us : UserStore) : RelayState → Prop :=
  Relation.ReflTransGen RStep (initRelay us)

/-! ## Association-map lemmas -/

/-- Lookup in a map extended on the right with a fresh key. -/
theorem mapGet_append_fresh {α : Type} (m : List (String × α)) (k : String) (v : α)
    (hf : m.find? (fun p => p.1 == k) = none) :
    mapGet (m ++ [(k, v)]) k = some v := by
  induction m with
  | nil => simp [mapGet]
  | cons p m ih =>
    have hp : ¬ (((fun q : String × α => q.1 == k) p) = true) := by
      intro hp'
      rw [@List.find?_cons_of_pos _ (fun q => q.1 == k) p m hp'] at hf
      cases hf
    have hf' : m.find? (fun p => p.1 == k) = none := by
      rwa [@List.find?_cons_of_neg _ (fun q => q.1 == k) p m hp] at hf
    have hrec := ih hf'
    unfold mapGet at hrec ⊢
    rw [List.cons_append, @List.find?_cons_of_neg _ (fun q => q.1 == k) p _ hp]
    exact hrec

/-- Lookup after an in-place update at a present key. -/
theorem mapGet_update_found {α : Type} (m : List (String × α)) (k : String) (v : α)
    (hf : (m.find? (fun p => p.1 == k)).isSome) :
    mapGet (m.map (fun p => if p.1 == k then (k, v) else p)) k = some v := by
  induction m with
  | nil => simp at hf
  | cons p m ih =>
    by_cases hp : (p.1 == k) = true
    · unfold mapGet
      rw [List.map_cons]
      have hfp : (if p.1 == k then (k, v) else p) = (k, v) := by simp [hp]
      rw [hfp, @List.find?_cons_of_pos _ (fun q => q.1 == k) (k, v) _ (by simp)]
      rfl
    · have hfp : (if p.1 == k then (k, v) else p) = p := by simp [hp]
      have hf' : (m.find? (fun q => q.1 == k)).isSome := by
        rwa [@List.find?_cons_of_neg _ (fun q => q.1 == k) p m hp] at hf
      have hrec := ih hf'
      unfold mapGet at hrec ⊢
      rw [List.map_cons, hfp, @List.find?_cons_of_neg _ (fun q => q.1 == k) p _ hp]
      exact hrec

/-- Lookup after `mapSet` at the written key. -/
theorem mapGet_mapSet_self {α : Type} (m : List (String × α)) (k : String) (v : α) :
    mapGet (mapSet m k v) k = some v := by
  unfold mapSet
  by_cases hf : (m.find? (fun p => p.1 == k)).isSome
  · rw [if_pos hf]
    exact mapGet_update_found m k v hf
  · rw [if_neg hf]
    exact mapGet_append_fresh m k v (Option.not_isSome_iff_eq_none.mp hf)

/-- Lookup after `mapDel` at the deleted key. -/
theorem mapGet_mapDel_self {α : Type} (m : List (String × α)) (k : String) :
    mapGet (mapDel m k) k = none := by
  induction m with
  | nil => simp [mapDel, mapGet]
  | cons p m ih =>
    by_cases hp : p.1 == k
    · have : (p.1 != k) = false := by simp [bne, hp]
      simpa [mapDel, mapGet, List.filter, this] using ih
    · have hp' : (p.1 == k) = false := by simpa using hp
      have : (p.1 != k) = true := by simp [bne, hp']
      simpa [mapDel, mapGet, List.filter, this, List.find?, hp'] using ih

/-- The key list of a map. -/
def mapKeys {α : Type} (m : List (String × α)) : List String :=
  m.map Prod.fst

/-- `mapSet` keeps the key list when the key is present, else appends it. -/
theorem mapKeys_mapSet {α : Type} (m : List (String × α)) (k : String) (v : α) :
    mapKeys (mapSet m k v) =
      if (m.find? (fun p => p.1 == k)).isSome then mapKeys m else mapKeys m ++ [k] := by
  unfold mapSet mapKeys
  split
  · rw [List.map_map]
    refine List.map_congr_left ?_
    intro p _
    by_cases hp : p.1 == k
    · simp [Function.comp, hp, (eq_of_beq hp).symm]
    · simp [Function.comp, hp]
  · simp

/-- `mapSet` preserves distinctness of keys. -/
theorem nodup_mapKeys_mapSet {α : Type} (m : List (String × α)) (k : String) (v : α)
    (h : (mapKeys m).Nodup) : (mapKeys (mapSet m k v)).Nodup := by
  rw [mapKeys_mapSet]
  split
  · exact h
  · rename_i hf
    have hk : k ∉ mapKeys m := by
      intro hmem
      rcases List.mem_map.mp hmem with ⟨p, hp, hpk⟩
      have := List.find?_eq_none.mp (Option.not_isSome_iff_eq_none.mp hf) p hp
      exact this (by simp [hpk])
    simp [List.nodup_append, h, hk]

/-- `mapDel` preserves distinctness of keys. -/
theorem nodup_mapKeys_mapDel {α : Type} (m : List (String × α)) (k : String)
    (h : (mapKeys m).Nodup) : (mapKeys (mapDel m k)).Nodup := by
  have hsub : List.Sublist (mapKeys (mapDel m k)) (mapKeys m) :=
    List.Sublist.map Prod.fst (List.filter_sublist m)
  exact h.sublist hsub

/-- With distinct keys, at most one entry of the map carries any key. -/
theorem filter_length_le_one_of_nodup {α : Type} (m : List (String × α))
    (h : (mapKeys m).Nodup) (k : String) :
    (m.filter (fun p => p.1 == k)).length ≤ 1 := by
  induction m with
  | nil => simp
  | cons p m ih =>
    have h' : (mapKeys m).Nodup := (List.nodup_cons.mp h).2
    by_cases hp : p.1 == k
    · have hk : p.1 ∉ mapKeys m := (List.nodup_cons.mp h).1
      have hzero : (m.filter (fun q => q.1 == k)).length = 0 := by
        rw [List.length_eq_zero]
        rw [List.filter_eq_nil]
        intro q hq
        intro hqk
        apply hk
        have : q.1 = k := eq_of_beq hqk
        have hpk : p.1 = k := eq_of_beq hp
        rw [hpk, ← this]
        exact List.mem_map.mpr ⟨q, hq, rfl⟩
      simp [List.filter, hp, hzero]
    · have hp' : (p.1 == k) = false := by simpa using hp
      simpa [List.filter, hp'] using ih h'

/-! ## Invariant: distinct keys in the agents map -/

/-- Every event-loop turn preserves distinctness of the agent-map keys. -/
theorem rstep_preserves_nodup {st st' : RelayState} (h : RStep st st')
    (hn : (mapKeys st.agents).Nodup) : (mapKeys st'.agents).Nodup := by
  cases h with
  | agentConn sock k uid mid mn =>
    unfold agentConnectHandler agentDisconnectHandler
    cases hg : mapGet st.agents k with
    | none =>
      simp only [hg]
      exact nodup_mapKeys_mapSet _ _ _ hn
    | some a =>
      by_cases hc : a.connected = true
      · simp only [hg, hc, if_true]
        exact nodup_mapKeys_mapSet _ _ _ (nodup_mapKeys_mapDel _ _ hn)
      · simp only [hg, hc, if_false, Bool.false_eq_true]
        exact nodup_mapKeys_mapSet _ _ _ hn
  | agentDisc k uid mid =>
    exact nodup_mapKeys_mapDel _ _ hn
  | screenInfoStep k p =>
    unfold screenInfoHandler
    cases hg : mapGet st.agents k with
    | none => simp only [hg]; exact hn
    | some a =>
      simp only [hg]
      exact nodup_mapKeys_mapSet _ _ _ hn
  | viewerConn sock uid mid => exact hn
  | viewerDisc sock k => exact hn
  | usersMutate us => exact hn

/-- Distinct agent-map keys hold in every reachable relay state. -/
theorem reachable_nodup (us : UserStore) (st : RelayState) (h : Reachable us st) :
    (mapKeys st.agents).Nodup := by
  induction h with
  | refl => simp [initRelay, mapKeys]
  | tail _ hstep ih => exact rstep_preserves_nodup hstep ih

/-- Full characterization of an agent handshake that evicts an active prior
connection: the exact state change and the exact ordered action trace. -/
theorem evictionTrace (st : RelayState) (sock : Nat) (k uid mid mn : String)
    (a : AgentConn) (hg : mapGet st.agents k = some a) (hc : a.connected = true) :
    agentConnectHandler st sock k uid mid mn =
      ({ st with agents := mapSet (mapDel st.agents k) k (AgentConn.mk sock none true uid mid mn) },
       [Action.emitSock a.sock (.kicked "Another agent connected for this machine"),
        Action.disconnectSock a.sock,
        Action.mapDelKey k,
        Action.emitRoom (viewerRoom k) (.agentStatus false),
        Action.emitRoom (userRoom a.userId) (.machineStatus a.machineId false),
        Action.mapSetKey k sock,
        Action.emitRoom (viewerRoom k) (.agentStatus true),
        Action.emitRoom (userRoom uid) (.machineStatus mid true)]) := by
  unfold agentConnectHandler agentDisconnectHandler
  simp [hg, hc]

/-- The demo user store (seeded with fixed hashes and agent keys for the
concrete instances below). -/
def demoUsers : UserStore :=
  (seedStore "hashK" "hashT" "KEYA" "KEYB").1

/-- The relay state after one agent handshake on the fresh boot state. -/
def demoRelay1 : RelayState :=
  (agentConnectHandler (initRelay demoUsers) 1 "KEYA" "kingpin" "m1" "My Laptop").1

/-- C1. Single-agent invariant: in every reachable relay state the agents
registry holds at most one entry (hence at most one Active connection) per
agent key; and a successful handshake for key `k` while a prior connection
is Active sends the prior `kicked`, disconnects it, and removes it from the
registry strictly before the replacement is stored and announced, after
which the replacement is the Active entry for `k`. -/
theorem single_agent_invariant_and_eviction_order :
    (∀ us st, Reachable us st →
      ∀ k, (st.agents.filter (fun p => p.1 == k)).length ≤ 1) ∧
    (∀ st sock k uid mid mn (a : AgentConn),
      mapGet st.agents k = some a → a.connected = true →
      (agentConnectHandler st sock k uid mid mn).2 =
        [Action.emitSock a.sock (.kicked "Another agent connected for this machine"),
         Action.disconnectSock a.sock,
         Action.mapDelKey k,
         Action.emitRoom (viewerRoom k) (.agentStatus false),
         Action.emitRoom (userRoom a.userId) (.machineStatus a.machineId false),
         Action.mapSetKey k sock,
         Action.emitRoom (viewerRoom k) (.agentStatus true),
         Action.emitRoom (userRoom uid) (.machineStatus mid true)] ∧
      mapGet (agentConnectHandler st sock k uid mid mn).1.agents k =
        some { sock := sock, screenInfo := none, connected := true
               userId := uid, machineId := mid, machineName := mn }) := by
  constructor
  · intro us st h k
    exact filter_length_le_one_of_nodup _ (reachable_nodup us st h) k
  · intro st sock k uid mid mn a hg hc
    rw [evictionTrace st sock k uid mid mn a hg hc]
    exact ⟨rfl, mapGet_mapSet_self _ _ _⟩

/-- Witness for C1 at a concrete reachable state and a concrete eviction. -/
theorem single_agent_invariant_and_eviction_order_witness :
    ((demoRelay1.agents.filter (fun p => p.1 == "KEYA")).length ≤ 1) ∧
    (agentConnectHandler demoRelay1 2 "KEYA" "kingpin" "m1" "My Laptop").2 =
      [Action.emitSock 1 (.kicked "Another agent connected for this machine"),
       Action.disconnectSock 1,
       Action.mapDelKey "KEYA",
       Action.emitRoom (viewerRoom "KEYA") (.agentStatus false),
       Action.emitRoom (userRoom "kingpin") (.machineStatus "m1" false),
       Action.mapSetKey "KEYA" 2,
       Action.emitRoom (viewerRoom "KEYA") (.agentStatus true),
       Action.emitRoom (userRoom "kingpin") (.machineStatus "m1" true)] :=
  ⟨single_agent_invariant_and_eviction_order.1 demoUsers demoRelay1
     (Relation.ReflTransGen.single
       (RStep.agentConn (initRelay demoUsers) 1 "KEYA" "kingpin" "m1" "My Laptop")) "KEYA",
   ((single_agent_invariant_and_eviction_order.2 demoRelay1 2 "KEYA" "kingpin" "m1" "My Laptop"
       { sock := 1, screenInfo := none, connected := true
         userId := "kingpin", machineId := "m1", machineName := "My Laptop" }
       (by decide) (by decide)).1)⟩

/-! ## C9: what viewers see during an eviction -/

/-- Selection of `agent-status` emissions to the viewer room of key `k`. -/
def agentStatusTo (k : String) : Action → Bool
  | .emitRoom r (.agentStatus _) => r == viewerRoom k
  | _ => false

/-- A concrete relay state with an Active agent for key `KEYA` (socket 1)
and one viewer (socket 5) in its viewer room. -/
def demoRelay9 : RelayState :=
  { users := demoUsers
    agents := [("KEYA", AgentConn.mk 1 none true "kingpin" "m1" "My Laptop")]
    rooms := [(viewerRoom "KEYA", [5])] }

/-- Counterexample to C9: when a second agent presenting `KEYA` completes its
handshake while socket 1 is Active and a viewer is in the room, the trace
does contain an `agent-status \x7bconnected:false\x7d` broadcast to that viewer
room — the claim that viewers receive none during the replacement is false
on the code. -/
theorem eviction_emits_disconnected_status_to_viewers :
    Action.emitRoom (viewerRoom "KEYA") (Event.agentStatus false) ∈
      (agentConnectHandler demoRelay9 2 "KEYA" "kingpin" "m1" "My Laptop").2 := by
  decide

/-- C9 (amended): during an eviction for key `k`, the viewer room receives
exactly two `agent-status` events, `connected:false` (emitted by the evicted
agent's `disconnect` handler) immediately followed by `connected:true`, so
the status seen once the replacement completes is connected. -/
theorem eviction_status_sequence (st : RelayState) (sock : Nat)
    (k uid mid mn : String) (a : AgentConn)
    (hg : mapGet st.agents k = some a) (hc : a.connected = true) :
    ((agentConnectHandler st sock k uid mid mn).2.filter (agentStatusTo k)) =
      [Action.emitRoom (viewerRoom k) (.agentStatus false),
       Action.emitRoom (viewerRoom k) (.agentStatus true)] := by
  rw [evictionTrace st sock k uid mid mn a hg hc]
  simp [agentStatusTo]

/-- Witness for the amended C9 at the concrete eviction of `demoRelay9`. -/
theorem eviction_status_sequence_witness :
    ((agentConnectHandler demoRelay9 2 "KEYA" "kingpin" "m1" "My Laptop").2.filter
        (agentStatusTo "KEYA")) =
      [Action.emitRoom (viewerRoom "KEYA") (.agentStatus false),
       Action.emitRoom (viewerRoom "KEYA") (.agentStatus true)] :=
  eviction_status_sequence demoRelay9 2 "KEYA" "kingpin" "m1" "My Laptop"
    (AgentConn.mk 1 none true "kingpin" "m1" "My Laptop") (by decide) (by decide)

/-! ## Lookup lemmas at other keys, and room lemmas -/

/-- An in-place update at key `k` does not change lookups at other keys. -/
theorem mapGet_update_ne {α : Type} (m : List (String × α)) (k k' : String) (v : α)
    (hne : k' ≠ k) :
    mapGet (m.map (fun p => if p.1 == k then (k, v) else p)) k' = mapGet m k' := by
  induction m with
  | nil => rfl
  | cons p m ih =>
    by_cases hp : (p.1 == k) = true
    · have hp1 : p.1 = k := eq_of_beq hp
      have hk1 : ((k : String) == k') = false := by
        simp [BEq.beq]
        intro h
        exact hne h.symm
      have hk2 : (p.1 == k') = false := by rw [hp1]; exact hk1
      unfold mapGet at ih ⊢
      rw [List.map_cons]
      have hfp : (if p.1 == k then (k, v) else p) = (k, v) := by simp [hp]
      rw [hfp]
      rw [@List.find?_cons_of_neg _ (fun q => q.1 == k') ((k : String), v) _ (by simp [hk1]),
        @List.find?_cons_of_neg _ (fun q => q.1 == k') p _ (by simp [hk2])]
      exact ih
    · have hfp : (if p.1 == k then (k, v) else p) = p := by simp [hp]
      unfold mapGet at ih ⊢
      rw [List.map_cons, hfp]
      by_cases hq : (p.1 == k') = true
      · rw [@List.find?_cons_of_pos _ (fun q => q.1 == k') p _ hq,
          @List.find?_cons_of_pos _ (fun q => q.1 == k') p _ hq]
      · rw [@List.find?_cons_of_neg _ (fun q => q.1 == k') p _ hq,
          @List.find?_cons_of_neg _ (fun q => q.1 == k') p _ hq]
        exact ih

/-- Appending an entry with key `k` does not change lookups at other keys
that do not resolve to it earlier. -/
theorem mapGet_append_ne {α : Type} (m : List (String × α)) (k k' : String) (v : α)
    (hne : k' ≠ k) :
    mapGet (m ++ [(k, v)]) k' = mapGet m k' := by
  induction m with
  | nil =>
    have hk1 : ((k : String) == k') = false := by
      simp [BEq.beq]
      intro h
      exact hne h.symm
    simp [mapGet, List.find?, hk1]
  | cons p m ih =>
    unfold mapGet at ih ⊢
    rw [List.cons_append]
    by_cases hq : (p.1 == k') = true
    · rw [@List.find?_cons_of_pos _ (fun q => q.1 == k') p _ hq,
        @List.find?_cons_of_pos _ (fun q => q.1 == k') p _ hq]
    · rw [@List.find?_cons_of_neg _ (fun q => q.1 == k') p _ hq,
        @List.find?_cons_of_neg _ (fun q => q.1 == k') p _ hq]
      exact ih

/-- `mapSet` at key `k` does not change lookups at other keys. -/
theorem mapGet_mapSet_ne {α : Type} (m : List (String × α)) (k k' : String) (v : α)
    (hne : k' ≠ k) : mapGet (mapSet m k v) k' = mapGet m k' := by
  unfold mapSet
  split
  · exact mapGet_update_ne m k k' v hne
  · exact mapGet_append_ne m k k' v hne

/-- A user room is never a viewer room (their prefixes differ). -/
theorem userRoom_ne_viewerRoom (u k : String) : userRoom u ≠ viewerRoom k := by
  intro h
  have h3 : ("user:" ++ u).data = ("viewers:" ++ k).data := congrArg String.data h
  rw [String.data_append, String.data_append] at h3
  have e1 : "user:".data = ['u', 's', 'e', 'r', ':'] := rfl
  have e2 : "viewers:".data = ['v', 'i', 'e', 'w', 'e', 'r', 's', ':'] := rfl
  rw [e1, e2] at h3
  simp at h3

/-- Members of the joined room after `roomJoin`. -/
theorem roomMembers_roomJoin_self (rs : Rooms) (r : String) (sock : Nat) :
    roomMembers (roomJoin rs r sock) r =
      if sock ∈ roomMembers rs r then roomMembers rs r
      else roomMembers rs r ++ [sock] := by
  by_cases h : sock ∈ roomMembers rs r
  · have hj : roomJoin rs r sock = rs := by simp [roomJoin, h]
    rw [hj, if_pos h]
  · have hj : roomJoin rs r sock = mapSet rs r (roomMembers rs r ++ [sock]) := by
      simp [roomJoin, h]
    rw [hj, if_neg h]
    unfold roomMembers
    rw [mapGet_mapSet_self]

/-- `roomJoin` on another room leaves a room's members unchanged. -/
theorem roomMembers_roomJoin_ne (rs : Rooms) (r r' : String) (sock : Nat)
    (hne : r ≠ r') : roomMembers (roomJoin rs r' sock) r = roomMembers rs r := by
  by_cases h : sock ∈ roomMembers rs r'
  · have hj : roomJoin rs r' sock = rs := by simp [roomJoin, h]
    rw [hj]
  · have hj : roomJoin rs r' sock = mapSet rs r' (roomMembers rs r' ++ [sock]) := by
      simp [roomJoin, h]
    rw [hj]
    unfold roomMembers
    rw [mapGet_mapSet_ne _ _ _ _ hne]

/-- Lookup through a value-only map. -/
theorem mapGet_mapValues {α β : Type} (m : List (String × α)) (f : α → β) (k : String) :
    mapGet (m.map (fun p => (p.1, f p.2))) k = (mapGet m k).map f := by
  induction m with
  | nil => rfl
  | cons p m ih =>
    unfold mapGet at ih ⊢
    rw [List.map_cons]
    by_cases hq : (p.1 == k) = true
    · rw [@List.find?_cons_of_pos _ (fun q => q.1 == k) (p.1, f p.2) _ (by simpa using hq),
        @List.find?_cons_of_pos _ (fun q => q.1 == k) p _ hq]
      rfl
    · rw [@List.find?_cons_of_neg _ (fun q => q.1 == k) (p.1, f p.2) _ (by simpa using hq),
        @List.find?_cons_of_neg _ (fun q => q.1 == k) p _ hq]
      exact ih

/-- After the automatic room cleanup, a room's members are the old members
without the departed socket. -/
theorem roomMembers_leaveAll (rs : Rooms) (sock : Nat) (r : String) :
    roomMembers (roomsLeaveAll rs sock) r =
      (roomMembers rs r).filter (fun s => s ≠ sock) := by
  unfold roomsLeaveAll roomMembers
  rw [mapGet_mapValues rs (fun ms => ms.filter (fun s => s ≠ sock)) r]
  cases mapGet rs r <;> simp

/-! ## C2: viewer-count-driven streaming -/

/-- Test for a `start-streaming` emission. -/
def isStartStreamingEmit : Action → Bool
  | .emitSock _ .startStreaming => true
  | _ => false

/-- Full evaluation of a viewer attach whose agent key resolves to a truthy
key held by a connected agent. -/
theorem viewerConnect_eval (st : RelayState) (sock : Nat) (uid : String)
    (mid : Option String) (k : String) (a : AgentConn)
    (hres : resolveAgentKey st.users uid mid = some k) (hk : k ≠ "")
    (hg : mapGet st.agents k = some a) (hc : a.connected = true) :
    viewerConnectHandler st sock uid mid =
      ({ st with rooms := roomJoin (roomJoin st.rooms (viewerRoom k) sock) (userRoom uid) sock },
       [Action.emitSock sock (.agentStatus true), Action.emitSock a.sock .startStreaming] ++
         (match a.screenInfo with
          | some si => [Action.emitSock sock (.screenInfo si)]
          | none => []),
       some k) := by
  unfold viewerConnectHandler
  simp [hres, hk, hg, hc]

/-- C2. Streaming control by viewer-group size: a viewer attach that takes
the viewer group of an Active agent key from size 0 to size 1 emits exactly
one `start-streaming`, addressed to that agent; a viewer disconnect that
takes the group from size 1 (just the departing viewer) to size 0 emits
exactly one `stop-streaming` to the agent; and no `stop-streaming` is
emitted while the group stays nonempty. -/
theorem viewer_count_streaming_control :
    (∀ st sock uid mid k (a : AgentConn),
      resolveAgentKey st.users uid mid = some k → k ≠ "" →
      mapGet st.agents k = some a → a.connected = true →
      roomMembers st.rooms (viewerRoom k) = [] →
      ((viewerConnectHandler st sock uid mid).2.1.countP isStartStreamingEmit = 1 ∧
       Action.emitSock a.sock Event.startStreaming ∈ (viewerConnectHandler st sock uid mid).2.1 ∧
       roomMembers (viewerConnectHandler st sock uid mid).1.rooms (viewerRoom k) = [sock])) ∧
    (∀ st sock k (a : AgentConn),
      k ≠ "" →
      roomMembers st.rooms (viewerRoom k) = [sock] →
      mapGet st.agents k = some a → a.connected = true →
      (viewerDisconnectHandler st sock (some k)).2 =
        [Action.emitSock a.sock Event.stopStreaming]) ∧
    (∀ st sock k,
      k ≠ "" →
      roomMembers (roomsLeaveAll st.rooms sock) (viewerRoom k) ≠ [] →
      (viewerDisconnectHandler st sock (some k)).2 = []) := by
  refine ⟨?_, ?_, ?_⟩
  · intro st sock uid mid k a hres hk hg hc hempty
    rw [viewerConnect_eval st sock uid mid k a hres hk hg hc]
    refine ⟨?_, ?_, ?_⟩
    · cases a.screenInfo <;>
        simp [isStartStreamingEmit, List.countP_cons, List.countP_append]
    · cases a.screenInfo <;> simp
    · rw [roomMembers_roomJoin_ne _ _ _ _ (Ne.symm (userRoom_ne_viewerRoom uid k)),
        roomMembers_roomJoin_self, hempty]
      simp
  · intro st sock k a hk hone hg hc
    unfold viewerDisconnectHandler
    have hleft : roomMembers (roomsLeaveAll st.rooms sock) (viewerRoom k) = [] := by
      rw [roomMembers_leaveAll, hone]
      simp
    simp [strTruthy, hk, hleft, hg, hc]
  · intro st sock k hk hnonempty
    unfold viewerDisconnectHandler
    simp [strTruthy, hk, hnonempty]

/-- A concrete relay state for the C2 witness: Active agent for `KEYA` on
socket 1, another viewer (socket 7) already watching `KEYB`. -/
def demoRelay2 : RelayState :=
  { users := demoUsers
    agents := [("KEYA", AgentConn.mk 1 none true "kingpin" "m1" "My Laptop")]
    rooms := [(viewerRoom "KEYB", [7])] }

/-- Witness for C2: attaching viewer socket 5 to kingpin's machine `m1`
(group size 0 → 1) emits exactly one `start-streaming` to socket 1; its
departure (group size 1 → 0) emits exactly one `stop-streaming`. -/
theorem viewer_count_streaming_control_witness :
    ((viewerConnectHandler demoRelay2 5 "kingpin" (some "m1")).2.1.countP isStartStreamingEmit = 1 ∧
     Action.emitSock 1 Event.startStreaming ∈ (viewerConnectHandler demoRelay2 5 "kingpin" (some "m1")).2.1 ∧
     roomMembers (viewerConnectHandler demoRelay2 5 "kingpin" (some "m1")).1.rooms (viewerRoom "KEYA") = [5]) ∧
    (viewerDisconnectHandler (viewerConnectHandler demoRelay2 5 "kingpin" (some "m1")).1 5 (some "KEYA")).2 =
      [Action.emitSock 1 Event.stopStreaming] :=
  ⟨viewer_count_streaming_control.1 demoRelay2 5 "kingpin" (some "m1") "KEYA"
     (AgentConn.mk 1 none true "kingpin" "m1" "My Laptop")
     (by decide) (by decide) (by decide) (by decide) (by decide),
   viewer_count_streaming_control.2.1 (viewerConnectHandler demoRelay2 5 "kingpin" (some "m1")).1 5 "KEYA"
     (AgentConn.mk 1 none true "kingpin" "m1" "My Laptop")
     (by decide) (by decide) (by decide) (by decide)⟩

/-! ## C3: invite expiry is lazy but never removes the invite -/

/-- A concrete invite store holding one invite that expired at instant 100. -/
def demoInvites : Invites :=
  [("tokX", Invite.mk "kingpin" "m1" "My Laptop" "Kingpin" 100)]

/-- Counterexample to C3: at instant 101 (strictly past `expiresAt`) the
invite-info lookup is rejected with the expired-invite error, yet the invite
is still present in the store afterwards — the claimed removal on first
expired use does not happen. -/
theorem expired_invite_use_does_not_remove :
    (inviteInfoHandler demoInvites 101 "tokX").1 = InviteInfoResp.missing ∧
    (inviteInfoHandler demoInvites 101 "tokX").2 = demoInvites ∧
    mapGet (inviteInfoHandler demoInvites 101 "tokX").2 "tokX" =
      some (Invite.mk "kingpin" "m1" "My Laptop" "Kingpin" 100) := by
  decide

/-- C3 (amended): any use of an invite strictly after its `expiresAt` —
whether the public invite-info lookup or a socket handshake carrying the
invite token — is rejected with the expired-invite error, and the invite
store is left unchanged (the invite is not removed; only explicit revocation
or process restart removes it). -/
theorem expired_invite_rejected_store_unchanged :
    ∀ (inv : Invites) (now : Millis) (tok : String) (i : Invite),
      mapGet inv tok = some i → now > i.expiresAt → tok ≠ "" →
      (inviteInfoHandler inv now tok = (InviteInfoResp.missing, inv)) ∧
      (∀ (us : UserStore) (ss : Sessions) (h : Handshake),
        (h.role == some "agent") = false → h.inviteToken = some tok →
        ioAuthMiddleware us ss inv now h =
          (.refused "Invalid or expired invite link", ss, inv)) := by
  intro inv now tok i hget hexp htok
  constructor
  · unfold inviteInfoHandler
    rw [hget]
    simp [hexp]
  · intro us ss h hrole hitok
    unfold ioAuthMiddleware
    rw [if_neg (by simp [hrole])]
    rw [if_pos (by simp [strTruthy, hitok, htok])]
    rw [hitok]
    simp [hget, hexp]

/-- Witness for the amended C3 at the concrete expired invite. -/
theorem expired_invite_rejected_store_unchanged_witness :
    (inviteInfoHandler demoInvites 101 "tokX" = (InviteInfoResp.missing, demoInvites)) ∧
    ioAuthMiddleware demoUsers [] demoInvites 101
        { inviteToken := some "tokX" } =
      (.refused "Invalid or expired invite link", [], demoInvites) :=
  ⟨(expired_invite_rejected_store_unchanged demoInvites 101 "tokX"
      (Invite.mk "kingpin" "m1" "My Laptop" "Kingpin" 100)
      (by decide) (by decide) (by decide)).1,
   (expired_invite_rejected_store_unchanged demoInvites 101 "tokX"
      (Invite.mk "kingpin" "m1" "My Laptop" "Kingpin" 100)
      (by decide) (by decide) (by decide)).2 demoUsers []
      { inviteToken := some "tokX" } (by decide) rfl⟩

/-! ## C4: user-store persistence is a direct whole-document write -/

/-- Counterexample to C4: the save performed by a successful `addMachine` is
one direct `writeFileSync` to the users file — not the claimed
write-temporary-then-rename pattern. -/
theorem addMachine_save_not_atomic_rename :
    ¬ atomicWritePattern (addMachine demoUsers "kingpin" "X" "m99" "KEYX").2.2 ∧
    (addMachine demoUsers "kingpin" "X" "m99" "KEYX").2.2 =
      [FsOp.writeFile usersFilePath
        (encodeUsers (addMachine demoUsers "kingpin" "X" "m99" "KEYX").2.1)] := by
  constructor
  · rintro ⟨tmp, c, hne, heq⟩
    have hlen := congrArg List.length heq
    have h1 : (addMachine demoUsers "kingpin" "X" "m99" "KEYX").2.2.length = 1 := by
      rw [show (addMachine demoUsers "kingpin" "X" "m99" "KEYX").2.2 =
          saveOps (addMachine demoUsers "kingpin" "X" "m99" "KEYX").2.1 from rfl]
      rfl
    rw [h1] at hlen
    simp at hlen
  · rfl

/-- C4 (amended): every user-store mutation that persists (`addMachine`,
`removeMachine`, `renameMachine`, the first-run seed, and the legacy
migration in `init`) rewrites the entire JSON document with one direct write
to the users file path; no mutation ever performs a temp-write or a rename,
so the write is not crash-atomic. (`setMacAddress`, also listed by the
claim, is not defined in `src/users.js` at all.) -/
theorem user_store_mutations_write_directly :
    (∀ us uid nm fid fk,
      (addMachine us uid nm fid fk).2.2 = [] ∨
      (addMachine us uid nm fid fk).2.2 =
        [FsOp.writeFile usersFilePath (encodeUsers (addMachine us uid nm fid fk).2.1)]) ∧
    (∀ us uid mid,
      (removeMachine us uid mid).2.2 = [] ∨
      (removeMachine us uid mid).2.2 =
        [FsOp.writeFile usersFilePath (encodeUsers (removeMachine us uid mid).2.1)]) ∧
    (∀ us uid mid nm,
      (renameMachine us uid mid nm).2.2 = [] ∨
      (renameMachine us uid mid nm).2.2 =
        [FsOp.writeFile usersFilePath (encodeUsers (renameMachine us uid mid nm).2.1)]) ∧
    (∀ h1 h2 k1 k2,
      (seedStore h1 h2 k1 k2).2 =
        [FsOp.writeFile usersFilePath (encodeUsers (seedStore h1 h2 k1 k2).1)]) ∧
    (∀ raw,
      (initLoad raw).2 = [] ∨
      (initLoad raw).2 =
        [FsOp.writeFile usersFilePath (encodeUsers (initLoad raw).1)]) := by
  refine ⟨?_, ?_, ?_, ?_, ?_⟩
  · intro us uid nm fid fk
    unfold addMachine
    cases hg : getById us uid with
    | none => left; simp
    | some u => right; simp [saveOps]
  · intro us uid mid
    unfold removeMachine
    cases hg : getById us uid with
    | none => left; simp
    | some u =>
      by_cases hf : (u.machines.find? (fun m => m.id == mid)).isSome
      · right; simp [hf, saveOps]
      · left; simp [hf]
  · intro us uid mid nm
    unfold renameMachine
    cases hg : getById us uid with
    | none => left; simp
    | some u =>
      by_cases hf : (u.machines.find? (fun m => m.id == mid)).isSome
      · right; simp [hf, saveOps]
      · left; simp [hf]
  · intro h1 h2 k1 k2
    rfl
  · intro raw
    unfold initLoad
    by_cases hm : raw.any (fun r => (migrateUser r).2)
    · right; simp [hm, saveOps]
    · left; simp [hm]

/-! ## C5: silent drop of invalid viewer mouse input -/

/-- A concrete agents map with a connected agent under `KEYA` on socket 1. -/
def demoAgents5 : Agents :=
  [("KEYA", AgentConn.mk 1 none true "kingpin" "m1" "My Laptop")]

/-- Counterexample to C5: the payload `\x7bx:5, y:5, button:0\x7d` carries a
button outside `\x7bleft, right, middle\x7d`, so by the claim it fails validation
and must produce zero agent-bound events; but `0` is falsy, the button check
is skipped (`data.button && !validButton(data.button)`), and the event is
forwarded to the agent. -/
theorem falsy_invalid_button_is_forwarded :
    validButton (JVal.num (JNum.fin 0)) = false ∧
    mouseEventHandler demoAgents5 (some "KEYA") "mouse-move"
        (some { x := .num (.fin 5), y := .num (.fin 5), button := .num (.fin 0) }) =
      [Action.emitSock 1 (Event.mouseEvent "mouse-move"
        (.num (.fin 5)) (.num (.fin 5)) (.num (.fin 0)))] := by
  decide

/-- C5 (amended): a viewer mouse event is silently dropped — no event to the
agent and no error back to the viewer — whenever its coordinates fail
`validCoord` (so in particular when `x` is the string `NaN`), and whenever a
truthy button value lies outside `\x7bleft, right, middle\x7d`; a falsy button
value (such as `0`, `""` or `false`) bypasses the button check, so a payload
with valid coordinates and a falsy button is forwarded. -/
theorem mouse_validation_silent_drop :
    (∀ ag k name d, validMouse d = false → mouseEventHandler ag k name d = []) ∧
    (∀ ag k name (d : MouseData), d.button.truthy = true → validButton d.button = false →
      mouseEventHandler ag k name (some d) = []) ∧
    (∀ ag k name (y b : JVal),
      mouseEventHandler ag k name (some { x := .str "NaN", y := y, button := b }) = []) := by
  refine ⟨?_, ?_, ?_⟩
  · intro ag k name d hv
    unfold mouseEventHandler
    simp [hv]
  · intro ag k name d ht hb
    unfold mouseEventHandler
    by_cases hv : validMouse (some d) = true
    · simp [hv, ht, hb]
    · simp [hv]
  · intro ag k name y b
    have hv : validMouse (some { x := JVal.str "NaN", y := y, button := b }) = false := by
      simp [validMouse, validCoord]
    unfold mouseEventHandler
    simp [hv]

/-- Witness for the amended C5: a `mouse-move` whose `x` is the string `NaN`
fails `validMouse` and produces zero actions even with a connected agent. -/
theorem mouse_validation_silent_drop_witness :
    validMouse (some { x := .str "NaN", y := .num (.fin 5), button := .undef }) = false ∧
    mouseEventHandler demoAgents5 (some "KEYA") "mouse-move"
      (some { x := .str "NaN", y := .num (.fin 5), button := .undef }) = [] :=
  ⟨by decide,
   mouse_validation_silent_drop.1 demoAgents5 (some "KEYA") "mouse-move"
     (some { x := .str "NaN", y := .num (.fin 5), button := .undef }) (by decide)⟩

/-! ## C6: quality and fps range checks have no integrality test -/

/-- Counterexample to C6: `quality = 55.5` is not an integer in `[10, 100]`,
so by the claim it must be dropped; the code forwards it to the agent. -/
theorem noninteger_quality_forwarded :
    updateQualityHandler demoAgents5 (some "KEYA") (some (.num (.fin (111 / 2)))) =
      [Action.emitSock 1 (Event.updateQuality (.num (.fin (111 / 2))))] ∧
    ¬ specQualityOk (.num (.fin (111 / 2))) := by
  constructor
  · have h1 : JNum.ltc (.fin (111 / 2)) 10 = false := by
      simp [JNum.ltc]
      norm_num
    have h2 : JNum.gtc (.fin (111 / 2)) 100 = false := by
      simp [JNum.gtc]
      norm_num
    unfold updateQualityHandler
    simp [h1, h2, agentFor, strTruthy, demoAgents5, mapGet, List.find?]
  · rintro ⟨n, hn, h1, h2⟩
    have hq : (n : ℚ) = 111 / 2 := by
      injection hn with hn'
      injection hn' with hn''
      exact hn''.symm
    have hq2 : ((2 * n : ℤ) : ℚ) = (111 : ℚ) := by
      push_cast
      rw [hq]
      norm_num
    have h2n : (2 * n : ℤ) = 111 := by exact_mod_cast hq2
    omega

/-- C6 (amended): with a connected agent resolved, `update-quality` forwards
a payload iff its `quality` field is a JS number `n` with neither `n < 10`
nor `n > 100` under JS comparison — any number in `[10, 100]`, integer or
not, and also `NaN` (both comparisons are false for it); everything else,
and any non-number, is dropped. `update-fps` behaves the same with bounds 1
and 60. -/
theorem quality_fps_forwarding_condition :
    ∀ ag k (a : AgentConn), agentFor ag k = some a → a.connected = true →
    (∀ n : JNum, updateQualityHandler ag k (some (.num n)) =
        (if n.ltc 10 = false ∧ n.gtc 100 = false
         then [Action.emitSock a.sock (.updateQuality (.num n))] else [])) ∧
    (∀ v : JVal, (∀ n, v ≠ .num n) → updateQualityHandler ag k (some v) = []) ∧
    (updateQualityHandler ag k none = []) ∧
    (∀ n : JNum, updateFpsHandler ag k (some (.num n)) =
        (if n.ltc 1 = false ∧ n.gtc 60 = false
         then [Action.emitSock a.sock (.updateFps (.num n))] else [])) ∧
    (∀ v : JVal, (∀ n, v ≠ .num n) → updateFpsHandler ag k (some v) = []) ∧
    (updateFpsHandler ag k none = []) := by
  intro ag k a hga hc
  refine ⟨?_, ?_, rfl, ?_, ?_, rfl⟩
  · intro n
    unfold updateQualityHandler
    by_cases h1 : n.ltc 10 = true
    · simp [h1]
    · by_cases h2 : n.gtc 100 = true
      · simp [h1, h2]
      · simp [h1, h2, hga, hc]
  · intro v hv
    unfold updateQualityHandler
    cases v with
    | num n => exact absurd rfl (hv n)
    | str s => rfl
    | boolv b => rfl
    | undef => rfl
  · intro n
    unfold updateFpsHandler
    by_cases h1 : n.ltc 1 = true
    · simp [h1]
    · by_cases h2 : n.gtc 60 = true
      · simp [h1, h2]
      · simp [h1, h2, hga, hc]
  · intro v hv
    unfold updateFpsHandler
    cases v with
    | num n => exact absurd rfl (hv n)
    | str s => rfl
    | boolv b => rfl
    | undef => rfl

/-- Witness for the amended C6: `NaN` quality is forwarded (both JS
comparisons are false), and fps 30 is forwarded. -/
theorem quality_fps_forwarding_condition_witness :
    updateQualityHandler demoAgents5 (some "KEYA") (some (.num .nan)) =
      [Action.emitSock 1 (Event.updateQuality (.num .nan))] ∧
    updateFpsHandler demoAgents5 (some "KEYA") (some (.num (.fin 30))) =
      [Action.emitSock 1 (Event.updateFps (.num (.fin 30)))] := by
  have h := quality_fps_forwarding_condition demoAgents5 (some "KEYA")
    (AgentConn.mk 1 none true "kingpin" "m1" "My Laptop") (by decide) (by decide)
  constructor
  · rw [h.1 JNum.nan]
    decide
  · rw [h.2.2.2.1 (JNum.fin 30)]
    decide

/-! ## C7: session inactivity TTL -/

/-- C7. Session inactivity TTL: a token whose `lastActive` is more than
`SESSION_TTL` (24 h) before the check fails validation and is deleted by
that very check; a check within the TTL succeeds and refreshes `lastActive`
to the current instant; consequently a session validated repeatedly with
every gap at most the TTL (e.g. hourly) passes every check, regardless of
its creation time. -/
theorem session_inactivity_ttl :
    (∀ now (ss : Sessions) t (s : Session), mapGet ss t = some s →
      now - s.lastActive > SESSION_TTL →
      isValidSession now ss (some t) = (false, mapDel ss t) ∧
      mapGet (isValidSession now ss (some t)).2 t = none) ∧
    (∀ now (ss : Sessions) t (s : Session), mapGet ss t = some s →
      now - s.lastActive ≤ SESSION_TTL →
      isValidSession now ss (some t) =
        (true, mapSet ss t { s with lastActive := now })) ∧
    (∀ (ts : List Millis) (ss : Sessions) t (s : Session), mapGet ss t = some s →
      gapsOk s.lastActive ts →
      (runChecks t ss ts).1.all (fun b => b) = true) := by
  have hexp : ∀ now (ss : Sessions) t (s : Session), mapGet ss t = some s →
      now - s.lastActive > SESSION_TTL →
      isValidSession now ss (some t) = (false, mapDel ss t) := by
    intro now ss t s hget httl
    unfold isValidSession
    simp [hget, httl]
  have hok : ∀ now (ss : Sessions) t (s : Session), mapGet ss t = some s →
      now - s.lastActive ≤ SESSION_TTL →
      isValidSession now ss (some t) =
        (true, mapSet ss t { s with lastActive := now }) := by
    intro now ss t s hget httl
    unfold isValidSession
    have hnot : ¬ (now - s.lastActive > SESSION_TTL) := Nat.not_lt.mpr httl
    simp [hget, hnot]
  refine ⟨?_, hok, ?_⟩
  · intro now ss t s hget httl
    refine ⟨hexp now ss t s hget httl, ?_⟩
    rw [hexp now ss t s hget httl]
    exact mapGet_mapDel_self ss t
  · intro ts
    induction ts with
    | nil => intro ss t s hget hgaps; rfl
    | cons t0 ts ih =>
      intro ss t s hget hgaps
      obtain ⟨hle, hgap, hrest⟩ := hgaps
      have httl : t0 - s.lastActive ≤ SESSION_TTL := hgap
      have hstep := hok t0 ss t s hget httl
      unfold runChecks
      rw [hstep]
      simp only [List.all_cons, Bool.true_and]
      have hget' : mapGet (mapSet ss t { s with lastActive := t0 }) t =
          some { s with lastActive := t0 } := mapGet_mapSet_self ss t _
      exact ih (mapSet ss t { s with lastActive := t0 }) t
        { s with lastActive := t0 } hget' hrest

/-- Witness for C7: a session idle since instant 0 fails and is deleted at
`SESSION_TTL + 1`; one checked at 0 then hourly for three hours passes every
check. -/
theorem session_inactivity_ttl_witness :
    (isValidSession (SESSION_TTL + 1) [("T", Session.mk "kingpin" 0 0)] (some "T") =
       (false, mapDel [("T", Session.mk "kingpin" 0 0)] "T") ∧
     mapGet (isValidSession (SESSION_TTL + 1) [("T", Session.mk "kingpin" 0 0)] (some "T")).2 "T" = none) ∧
    (runChecks "T" [("T", Session.mk "kingpin" 0 0)]
        [3600000, 7200000, 10800000]).1.all (fun b => b) = true :=
  ⟨session_inactivity_ttl.1 (SESSION_TTL + 1) [("T", Session.mk "kingpin" 0 0)] "T"
     (Session.mk "kingpin" 0 0) (by decide) (by decide),
   session_inactivity_ttl.2.2 [3600000, 7200000, 10800000]
     [("T", Session.mk "kingpin" 0 0)] "T" (Session.mk "kingpin" 0 0)
     (by decide) (by decide)⟩

/-! ## C8: cross-user authorization boundary -/

/-- Evaluation of the shared guard when a valid session belongs to a
different user than the path: 403, with the session refreshed by
`isValidSession` on the way. -/
theorem guardUser_mismatch (ss : Sessions) (now : Millis) (t : String) (s : Session)
    (uid : String) (hget : mapGet ss t = some s)
    (httl : now - s.lastActive ≤ SESSION_TTL) (huid : s.userId ≠ uid) :
    guardUser ss now (some t) uid =
      (Guard.fail 403, mapSet ss t { s with lastActive := now }) := by
  unfold guardUser isValidSession
  have hnot : ¬ (now - s.lastActive > SESSION_TTL) := Nat.not_lt.mpr httl
  simp [hget, hnot, mapGet_mapSet_self, huid]

/-- C8 (amended). Cross-user requests are forbidden: every HTTP handler whose
path references `:userId`, given a valid session for a different user,
replies 403 and leaves the user store, invite store and agents registry
untouched, performs no file write and sends no packet; the only state it
touches is the session store, where validation refreshes the presented
session's `lastActive` (as on every authenticated request). -/
theorem cross_user_requests_forbidden :
    ∀ (st : HttpState) (now : Millis) (t : String) (s : Session)
      (uid mid fid fk ftok itok : String) (bodyName macA bcA : Option String),
      mapGet st.sessions t = some s →
      now - s.lastActive ≤ SESSION_TTL →
      s.userId ≠ uid →
      (userStatusHandler st now (some t) uid =
        (403, none, { st with sessions := mapSet st.sessions t { s with lastActive := now } })) ∧
      (machinesListHandler st now (some t) uid =
        (403, none, { st with sessions := mapSet st.sessions t { s with lastActive := now } })) ∧
      (machinesAddHandler st now (some t) uid bodyName fid fk =
        (403, { st with sessions := mapSet st.sessions t { s with lastActive := now } }, [])) ∧
      (machinesDeleteHandler st now (some t) uid mid =
        (403, { st with sessions := mapSet st.sessions t { s with lastActive := now } }, [])) ∧
      (machinesRenameHandler st now (some t) uid mid bodyName =
        (403, { st with sessions := mapSet st.sessions t { s with lastActive := now } }, [])) ∧
      (agentInfoHandler st now (some t) uid =
        (403, none, { st with sessions := mapSet st.sessions t { s with lastActive := now } })) ∧
      (macPatchHandler st now (some t) uid mid macA bcA =
        (403, { st with sessions := mapSet st.sessions t { s with lastActive := now } }, [])) ∧
      (wakeHandler st now (some t) uid mid =
        (403, { st with sessions := mapSet st.sessions t { s with lastActive := now } }, [])) ∧
      (inviteCreateHandler st now (some t) uid mid ftok =
        (403, { st with sessions := mapSet st.sessions t { s with lastActive := now } })) ∧
      (inviteRevokeHandler st now (some t) uid itok =
        (403, { st with sessions := mapSet st.sessions t { s with lastActive := now } })) := by
  intro st now t s uid mid fid fk ftok itok bodyName macA bcA hget httl huid
  have hg := guardUser_mismatch st.sessions now t s uid hget httl huid
  refine ⟨?_, ?_, ?_, ?_, ?_, ?_, ?_, ?_, ?_, ?_⟩
  · unfold userStatusHandler; rw [hg]
  · unfold machinesListHandler; rw [hg]
  · unfold machinesAddHandler; rw [hg]
  · unfold machinesDeleteHandler; rw [hg]
  · unfold machinesRenameHandler; rw [hg]
  · unfold agentInfoHandler; rw [hg]
  · unfold macPatchHandler; rw [hg]
  · unfold wakeHandler; rw [hg]
  · unfold inviteCreateHandler; rw [hg]
  · unfold inviteRevokeHandler; rw [hg]

/-- A concrete HTTP state: tez's session under token `T`, the stores
populated. -/
def demoHttp : HttpState :=
  { users := demoUsers
    sessions := [("T", Session.mk "tez" 0 0)]
    invites := demoInvites
    agents := demoAgents5 }

/-- Counterexample to C8 as literally stated: a machine-add request by tez's
valid session against kingpin's path gets its 403, but the request does
change state — `isValidSession` refreshes the session's `lastActive`
(extending its life), so the state afterwards differs from the state
before. -/
theorem cross_user_403_still_refreshes_session :
    (machinesAddHandler demoHttp 5 (some "T") "kingpin" (some "X") "m99" "KEYX").1 = 403 ∧
    (machinesAddHandler demoHttp 5 (some "T") "kingpin" (some "X") "m99" "KEYX").2.1 ≠ demoHttp := by
  decide

/-- Witness for the amended C8 at concrete cross-user requests. -/
theorem cross_user_requests_forbidden_witness :
    (userStatusHandler demoHttp 5 (some "T") "kingpin" =
      (403, none, { demoHttp with sessions := mapSet demoHttp.sessions "T" (Session.mk "tez" 0 5) })) ∧
    (wakeHandler demoHttp 5 (some "T") "kingpin" "m1" =
      (403, { demoHttp with sessions := mapSet demoHttp.sessions "T" (Session.mk "tez" 0 5) }, [])) :=
  ⟨(cross_user_requests_forbidden demoHttp 5 "T" (Session.mk "tez" 0 0) "kingpin" "m1"
      "m99" "KEYX" "ftok" "tokX" (some "X") none none
      (by decide) (by decide) (by decide)).1,
   (cross_user_requests_forbidden demoHttp 5 "T" (Session.mk "tez" 0 0) "kingpin" "m1"
      "m99" "KEYX" "ftok" "tokX" (some "X") none none
      (by decide) (by decide) (by decide)).2.2.2.2.2.2.2.1⟩

/-! ## C10: viewer attachment falls back to the user's first machine -/

/-- Fallback of the agent-key resolution when no machine id is supplied. -/
theorem resolveAgentKey_none_fallback (us : UserStore) (uid : String)
    (m : Machine) (rest : List Machine) (hms : getMachines us uid = m :: rest) :
    resolveAgentKey us uid none = some m.agentKey := by
  unfold resolveAgentKey
  simp [strTruthy, hms]

/-- Fallback of the agent-key resolution when the supplied machine id does
not resolve to a machine of the user. -/
theorem resolveAgentKey_miss_fallback (us : UserStore) (uid mid : String)
    (m : Machine) (rest : List Machine) (hmid : mid ≠ "")
    (hget : getMachine us uid mid = none) (hms : getMachines us uid = m :: rest) :
    resolveAgentKey us uid (some mid) = some m.agentKey := by
  unfold resolveAgentKey
  simp [strTruthy, hmid, hget, hms]

/-- Joining a room puts the socket among its members. -/
theorem mem_roomMembers_roomJoin_self (rs : Rooms) (r : String) (sock : Nat) :
    sock ∈ roomMembers (roomJoin rs r sock) r := by
  rw [roomMembers_roomJoin_self]
  by_cases h : sock ∈ roomMembers rs r
  · rwa [if_pos h]
  · rw [if_neg h]
    exact List.mem_append_right _ (by simp)

/-- C10. Viewer attachment falls back to the user's first machine: when the
viewer's machine id is absent or resolves to no machine of the user, and the
user has at least one machine, the viewer is attached to the first machine's
agent key; in particular an invite whose machine was deleted still passes
the handshake and the viewer is silently retargeted to the first machine of
the inviting user — joined to that machine's viewer room — rather than
rejected. -/
theorem viewer_attach_falls_back_to_first_machine :
    (∀ (us : UserStore) (uid : String) (m : Machine) (rest : List Machine),
      getMachines us uid = m :: rest →
      resolveAgentKey us uid none = some m.agentKey) ∧
    (∀ (us : UserStore) (uid mid : String) (m : Machine) (rest : List Machine),
      mid ≠ "" → getMachine us uid mid = none →
      getMachines us uid = m :: rest →
      resolveAgentKey us uid (some mid) = some m.agentKey) ∧
    (∀ (st : RelayState) (sock : Nat) (inv : Invites) (ss : Sessions) (now : Millis)
       (tok : String) (i : Invite) (m : Machine) (rest : List Machine) (h : Handshake),
      (h.role == some "agent") = false → h.inviteToken = some tok → tok ≠ "" →
      mapGet inv tok = some i → ¬ now > i.expiresAt →
      i.machineId ≠ "" → getMachine st.users i.userId i.machineId = none →
      getMachines st.users i.userId = m :: rest → m.agentKey ≠ "" →
      (ioAuthMiddleware st.users ss inv now h = (.inviteSock i.userId i.machineId, ss, inv)) ∧
      (viewerConnectHandler st sock i.userId (some i.machineId)).2.2 = some m.agentKey ∧
      sock ∈ roomMembers (viewerConnectHandler st sock i.userId (some i.machineId)).1.rooms
        (viewerRoom m.agentKey)) := by
  refine ⟨resolveAgentKey_none_fallback, resolveAgentKey_miss_fallback, ?_⟩
  intro st sock inv ss now tok i m rest h hrole hitok htok hget hexp hmid hmachine hms hkey
  have hres := resolveAgentKey_miss_fallback st.users i.userId i.machineId m rest hmid hmachine hms
  refine ⟨?_, ?_, ?_⟩
  · unfold ioAuthMiddleware
    rw [if_neg (by simp [hrole])]
    rw [if_pos (by simp [strTruthy, hitok, htok])]
    rw [hitok]
    simp [hget, hexp]
  · unfold viewerConnectHandler
    simp [hres]
  · unfold viewerConnectHandler
    simp only [hres, hkey, if_true, ne_eq, not_false_eq_true, if_pos]
    rw [roomMembers_roomJoin_ne _ _ _ _ (Ne.symm (userRoom_ne_viewerRoom i.userId m.agentKey))]
    exact mem_roomMembers_roomJoin_self st.rooms (viewerRoom m.agentKey) sock

/-- An invite store whose only invite targets a machine kingpin no longer
has. -/
def demoInvites10 : Invites :=
  [("tokY", Invite.mk "kingpin" "mGone" "Old Machine" "Kingpin" 1000)]

/-- A relay state with no agents and no rooms over the demo users. -/
def demoRelay10 : RelayState :=
  { users := demoUsers, agents := [], rooms := [] }

/-- Witness for C10: the invite to deleted machine `mGone` is accepted at
instant 50 and the viewer lands in the viewer room of `KEYA`, kingpin's
first machine. -/
theorem viewer_attach_falls_back_to_first_machine_witness :
    (ioAuthMiddleware demoRelay10.users [] demoInvites10 50
        { inviteToken := some "tokY" } =
      (.inviteSock "kingpin" "mGone", [], demoInvites10)) ∧
    (viewerConnectHandler demoRelay10 5 "kingpin" (some "mGone")).2.2 = some "KEYA" ∧
    5 ∈ roomMembers (viewerConnectHandler demoRelay10 5 "kingpin" (some "mGone")).1.rooms
        (viewerRoom "KEYA") :=
  viewer_attach_falls_back_to_first_machine.2.2 demoRelay10 5 demoInvites10 [] 50 "tokY"
    (Invite.mk "kingpin" "mGone" "Old Machine" "Kingpin" 1000)
    (Machine.mk "m1" "My Laptop" "KEYA" none none) []
    { inviteToken := some "tokY" }
    (by decide) rfl (by decide) (by decide) (by decide) (by decide)
    (by decide) (by decide) (by decide)

end LogInTo
